import Mathlib

/-!
Verification development for the ytsummary repository (ytsummary.py, with
youtube_summarizer.py as its legacy variant).  The definitions below are a
shallow embedding of the core pipeline: string handling mirrors the Python
string operations used by the source, external collaborators (YouTube data
API, yt-dlp subtitle retrieval, OpenRouter completion) are modelled as
oracle functions, and the filesystem is an association list from artifact
paths to file contents.
-/

/-! ## String primitives (structural, kernel-computable models of the
Python string operations used by the source) -/

/-- Model of splitting a list of characters at every occurrence of a
separator character, Python `str.split(sep)` with a one-character
separator (empty pieces are kept). -/
def splitCharAux (sep : Char) : List Char → List Char → List String
  | acc, [] => [String.mk acc.reverse]
  | acc, c :: cs =>
    if c == sep then String.mk acc.reverse :: splitCharAux sep [] cs
    else splitCharAux sep (c :: acc) cs

/-- Python `content.split(chr(10))`: split a string on newline characters. -/
def splitOnNl (s : String) : List String :=
  splitCharAux (Char.ofNat 10) [] s.toList

/-- Whitespace test for the characters Python `str.strip()` removes
(space, tab, newline, carriage return). -/
def isWsp (c : Char) : Bool :=
  c == Char.ofNat 32 || c == Char.ofNat 9 || c == Char.ofNat 10 || c == Char.ofNat 13

/-- Python `line.strip()`: drop leading and trailing whitespace. -/
def pyStrip (s : String) : String :=
  String.mk (((s.toList.dropWhile isWsp).reverse.dropWhile isWsp).reverse)

/-- Python `s.startswith(pat)`. -/
def startsWithStr (s pat : String) : Bool :=
  pat.toList.isPrefixOf s.toList

/-- Helper for substring containment over character lists. -/
def containsSeq (pat : List Char) : List Char → Bool
  | [] => pat.isPrefixOf []
  | c :: cs => pat.isPrefixOf (c :: cs) || containsSeq pat cs

/-- Python `pat in s` substring containment. -/
def containsStr (s pat : String) : Bool :=
  containsSeq pat.toList s.toList

/-- Python `s.isdigit()` (ASCII reading): nonempty and every character a digit. -/
def pyIsDigit (s : String) : Bool :=
  (!(s.toList.isEmpty)) && s.toList.all Char.isDigit

/-- Fuelled worker for `removeAll`; the fuel is an upper bound on the number
of characters still to be consumed, so well-founded recursion is avoided and
the definition reduces inside the kernel. -/
def removeAllAux (pat : List Char) : Nat → List Char → List Char
  | _, [] => []
  | 0, l => l
  | Nat.succ fuel, c :: cs =>
    if pat.isPrefixOf (c :: cs) && (!(pat.isEmpty)) then
      removeAllAux pat fuel (List.drop (pat.length - 1) cs)
    else c :: removeAllAux pat fuel cs

/-- Python `s.replace(pat, chr(0x30) * 0)` — non-overlapping left-to-right
removal of every occurrence of `pat` (the source only ever replaces
with the empty string). -/
def removeAll (s pat : String) : String :=
  String.mk (removeAllAux pat.toList s.toList.length s.toList)

/-- Python the space-join of a list of strings, `chr(32).join(parts)`. -/
def joinWithSpace : List String → String
  | [] => ("")
  | [x] => x
  | x :: y :: xs => x ++ (" ") ++ joinWithSpace (y :: xs)

/-! ## VTT parsing (ytsummary.py, get_transcript lines 218-236) -/

/-- Line filter of the VTT parser: a stripped line is kept when it is
nonempty, does not start with the WEBVTT keyword, does not start with NOTE,
does not contain the timing arrow, and is not a pure digit string —
the condition of the `if` at ytsummary.py line 224. -/
def vttKeep (line : String) : Bool :=
  (!(line == (""))) &&
  (!(startsWithStr line ("WEBVTT"))) &&
  (!(startsWithStr line ("NOTE"))) &&
  (!(containsStr line ("-->"))) &&
  (!(pyIsDigit line))

/-- Inline styling tag removal, the chain of `.replace` calls at
ytsummary.py lines 230-232, applied in source order. -/
def stripVttTags (line : String) : String :=
  removeAll (removeAll (removeAll (removeAll (removeAll (removeAll line
    ("<c>")) ("</c>")) ("<i>")) ("</i>")) ("<b>")) ("</b>")

/-- The accumulation loop of the VTT parser (ytsummary.py lines 219-234):
strip each raw line, keep it if it passes the filter, strip its styling
tags, and append it when the cleaned line is still nonempty. -/
def vttLoop : List String → List String → List String
  | acc, [] => acc
  | acc, raw :: rest =>
    let line := pyStrip raw
    if vttKeep line then
      let clean := stripVttTags line
      if !(clean == ("")) then vttLoop (acc ++ [clean]) rest
      else vttLoop acc rest
    else vttLoop acc rest

/-- The VTT-to-plain-text parser of get_transcript: split the payload into
lines, run the accumulation loop, and join the kept lines with spaces. -/
def parseVtt (content : String) : String :=
  joinWithSpace (vttLoop [] (splitOnNl content))

/-- get_transcript modelled from the point where a subtitle payload has
been (or has not been) retrieved: absent payload gives an absent
transcript, a retrieved payload is parsed. -/
def get_transcript (subtitlePayload : String → Option String) (vid : String) :
    Option String :=
  (subtitlePayload vid).map parseVtt

/-! Spec-side parsers for claim C8.  `specDiscard` transcribes the claim's
list of discarded line categories literally: the format header line,
cue-timing lines with the arrow token, blank lines, and pure-numeric
cue-index lines — and nothing else. -/

/-- Discard predicate written from the claim's words (no NOTE category). -/
def specDiscard (line : String) : Bool :=
  (line == ("")) || startsWithStr line ("WEBVTT") ||
  containsStr line ("-->") || pyIsDigit line

/-- Staged pipeline parser written from the claim's words: classify the
stripped lines, discard the listed categories, strip styling tags from the
remaining cue text lines, drop the ones that reduce to empty, and join with
single spaces in original order. -/
def specParseVtt (content : String) : String :=
  joinWithSpace
    (((((splitOnNl content).map pyStrip).filter
        (fun l => !(specDiscard l))).map stripVttTags).filter
      (fun l => !(l == (""))))

/-- Discard predicate of the amended claim: additionally discards comment
lines starting with the NOTE keyword (and reads the header category as any
line starting with WEBVTT). -/
def amendedDiscard (line : String) : Bool :=
  (line == ("")) || startsWithStr line ("WEBVTT") || startsWithStr line ("NOTE") ||
  containsStr line ("-->") || pyIsDigit line

/-- Staged pipeline parser of the amended claim C8. -/
def amendedSpecParseVtt (content : String) : String :=
  joinWithSpace
    (((((splitOnNl content).map pyStrip).filter
        (fun l => !(amendedDiscard l))).map stripVttTags).filter
      (fun l => !(l == (""))))

/-! ## Video resolution (ytsummary.py lines 84-170, 281-322, 484-532) -/

/-- One item of a channel uploads-playlist page, as consumed by
get_channel_videos (resourceId.videoId, title, publishedAt). -/
structure PlaylistItem where
  videoId : String
  title : String
  publishedAt : Int
deriving DecidableEq

/-- A resolved video descriptor, the dictionary appended to `all_videos`. -/
structure Video where
  id : String
  title : String
  publishedAt : Int
  isLiveContent : Bool
  channelId : Option String
deriving DecidableEq

/-- The items of one page that the per-page loop keeps: the loop at
ytsummary.py lines 122-137 walks the page in order and breaks at the first
item whose publishedAt is older than the cutoff. -/
def batchOfPage (cutoff : Int) (page : List PlaylistItem) : List PlaylistItem :=
  page.takeWhile (fun it => decide (cutoff ≤ it.publishedAt))

/-- The liveness filter at ytsummary.py lines 140-158: fetch live-streaming
detail for the batch (modelled by the `isLive` oracle) and keep only
non-live items, tagging them with the channel id. -/
def nonLiveVideosOf (isLive : String → Bool) (cid : String)
    (batch : List PlaylistItem) : List Video :=
  (batch.filter (fun it => !(isLive it.videoId))).map (fun it =>
    { id := it.videoId, title := it.title, publishedAt := it.publishedAt,
      isLiveContent := false, channelId := some cid })

/-- get_channel_videos of ytsummary.py (lines 109-167), over the uploads
listing served as a list of pages (a next-page token exists exactly when
more pages remain).  Returns the accumulated video list together with the
number of playlistItems pages requested.  Note the outer loop stops early
only when the per-page batch is empty (line 161), not when the cutoff was
passed mid-page. -/
def get_channel_videos (isLive : String → Bool) (cid : String) (cutoff : Int) :
    List (List PlaylistItem) → List Video × Nat
  | [] => ([], 0)
  | page :: rest =>
    let batch := batchOfPage cutoff page
    let vids := nonLiveVideosOf isLive cid batch
    if batch.isEmpty then (vids, 1)
    else if rest.isEmpty then (vids, 1)
    else
      let res := get_channel_videos isLive cid cutoff rest
      (vids ++ res.1, res.2 + 1)

/-- The legacy variant youtube_summarizer.py (lines 106-133): on the first
item older than the cutoff the whole function returns at once, so no
further page is requested; there is no liveness filter. -/
def get_channel_videos_legacy (cutoff : Int) :
    List (List PlaylistItem) → List PlaylistItem × Nat
  | [] => ([], 0)
  | page :: rest =>
    let batch := batchOfPage cutoff page
    if batch.length < page.length then (batch, 1)
    else if rest.isEmpty then (batch, 1)
    else
      let res := get_channel_videos_legacy cutoff rest
      (batch ++ res.1, res.2 + 1)

/-- Environment for channel-handle resolution: handle lookup, the paged
uploads listing of each channel, and the live-streaming detail oracle. -/
structure ChannelEnv where
  lookup : String → Option String
  pages : String → List (List PlaylistItem)
  isLive : String → Bool

/-- Videos contributed by one resolved channel id. -/
def channelVideos (env : ChannelEnv) (cutoff : Int) (cid : String) : List Video :=
  (get_channel_videos env.isLive cid cutoff (env.pages cid)).1

/-- The channel-handle branch of main (ytsummary.py lines 509-532): look up
each handle, skip failures, extend `all_videos` with that channel's videos
(the empty result is skipped with a diagnostic, contributing nothing). -/
def resolveChannels (env : ChannelEnv) (cutoff : Int) (inputs : List String) :
    List Video :=
  inputs.foldl (fun acc h =>
    match env.lookup h with
    | none => acc
    | some cid =>
      let vids := channelVideos env cutoff cid
      if vids.isEmpty then acc else acc ++ vids) []

/-- Videos contributed by one input (for stating what the concatenation is). -/
def inputVideos (env : ChannelEnv) (cutoff : Int) (h : String) : List Video :=
  match env.lookup h with
  | none => []
  | some cid => channelVideos env cutoff cid

/-- What the videos().list call returns for one explicit video id
(snippet plus presence of liveStreamingDetails), ytsummary.py lines 292-307. -/
structure YtVideoItem where
  title : String
  publishedAt : Int
  hasLiveStreamingDetails : Bool
  channelId : String
deriving DecidableEq

/-- get_video_details of ytsummary.py (lines 281-322): package the item for
the queried id into a video descriptor whose id is the queried id and whose
isLiveContent records the presence of liveStreamingDetails. -/
def get_video_details (oracle : String → Option YtVideoItem) (vid : String) :
    Option Video :=
  match oracle vid with
  | some it =>
    some { id := vid, title := it.title, publishedAt := it.publishedAt,
           isLiveContent := it.hasLiveStreamingDetails,
           channelId := some it.channelId }
  | none => none

/-- The explicit-id branch of main (ytsummary.py lines 486-508).  The
`videoIdsFlag` argument is args.video_ids, which is true on this branch;
the date guard at line 501 requires `not args.video_ids`, kept verbatim. -/
def resolveVideoIds (oracle : String → Option YtVideoItem) (videoIdsFlag : Bool)
    (days cutoff : Int) (inputs : List String) : List Video :=
  inputs.foldl (fun acc vid =>
    match get_video_details oracle vid with
    | none => acc
    | some vd =>
      if vd.isLiveContent then acc
      else if (!videoIdsFlag) && (decide (0 < days)) && (decide (vd.publishedAt < cutoff)) then acc
      else acc ++ [vd]) []

/-! ## Artifact store and pipeline state (ytsummary.py lines 367-440, 540-662) -/

/-- An artifact path: the transcript or summary file of one video id under
one run root, abstracting the string paths built with os.path.join. -/
inductive ArtPath where
  | transcript (runRoot : String) (videoId : String)
  | summary (runRoot : String) (videoId : String)
deriving DecidableEq

/-- The video id a path is keyed by. -/
def pathVideoId : ArtPath → String
  | ArtPath.transcript _ vid => vid
  | ArtPath.summary _ vid => vid

/-- The filesystem of the artifact store: an association of paths to file
contents, most recent write first. -/
abbrev FileStore := List (ArtPath × String)

/-- Read a file, most recent write wins. -/
def fsRead : FileStore → ArtPath → Option String
  | [], _ => none
  | e :: rest, p => if e.1 = p then some e.2 else fsRead rest p

/-- os.path.exists. -/
def fsExists (fs : FileStore) (p : ArtPath) : Bool :=
  (fsRead fs p).isSome

/-- Write (or overwrite) a file. -/
def fsWrite (fs : FileStore) (p : ArtPath) (c : String) : FileStore :=
  (p, c) :: fs

/-- Observable actions of one run, recorded in order: prior-run copies,
extractor invocations, fresh transcript writes, summarizer invocations,
summary writes, and failed-summary diagnostics. -/
inductive RunEvent where
  | copyTranscript (src dst : ArtPath)
  | copySummary (src dst : ArtPath)
  | extractCall (videoId : String)
  | writeTranscript (dst : ArtPath)
  | summarizeCall (videoId : String)
  | writeSummary (dst : ArtPath)
  | summaryFailed (videoId : String)
deriving DecidableEq

/-- The paths a single event writes to. -/
def writeTargets : RunEvent → List ArtPath
  | RunEvent.copyTranscript _ dst => [dst]
  | RunEvent.copySummary _ dst => [dst]
  | RunEvent.writeTranscript dst => [dst]
  | RunEvent.writeSummary dst => [dst]
  | _ => []

/-- Run configuration: the external collaborators (transcript extractor,
summarizer, channel-handle reverse lookup), the processed/ directory
listing, this run's root, the --include-previous flag and the generation
timestamp used in summary headers. -/
structure RunConfig where
  extract : String → Option String
  summarize : String → String
  handleOf : String → Option String
  listing : List String
  runRoot : String
  includePrevious : Bool
  now : String

/-- Mutable state of one orchestrator invocation: the filesystem plus the
processed / skipped / summarized id lists and the event trace. -/
structure RunState where
  fs : FileStore
  processedIds : List String
  skippedIds : List String
  summarizedIds : List String
  events : List RunEvent
deriving DecidableEq

/-- Fresh state over an initial filesystem. -/
def initState (fs0 : FileStore) : RunState :=
  { fs := fs0, processedIds := [], skippedIds := [], summarizedIds := [],
    events := [] }

/-- Datetime-folder name test of find_existing_transcript (ytsummary.py
lines 423-428): split on the underscore, first part six digits, second
part four digits. -/
def isDatetimeFolder (item : String) : Bool :=
  match splitCharAux (Char.ofNat 95) [] item.toList with
  | datePart :: timePart :: _ =>
    (decide (datePart.toList.length = 6)) && datePart.toList.all Char.isDigit &&
    (decide (timePart.toList.length = 4)) && timePart.toList.all Char.isDigit
  | _ => false

/-- The prior run roots scanned, in directory-listing order: entries of
processed/ other than the current run root that match the datetime naming
convention (ytsummary.py lines 417-429). -/
def datetimeFolderPaths (listing : List String) (currentFolder : String) :
    List String :=
  (listing.filter (fun item =>
    (!(decide (("processed/") ++ item = currentFolder))) && isDatetimeFolder item)).map
    (fun item => ("processed/") ++ item)

/-- Scan the candidate folders for a transcript of the video; on the first
hit also report that folder's summary when present (ytsummary.py 431-440). -/
def findInFolders (fs : FileStore) (vid : String) :
    List String → Option ArtPath × Option ArtPath
  | [] => (none, none)
  | folder :: rest =>
    let tp := ArtPath.transcript folder vid
    let sp := ArtPath.summary folder vid
    if fsExists fs tp then (some tp, if fsExists fs sp then some sp else none)
    else findInFolders fs vid rest

/-- find_existing_transcript of ytsummary.py (lines 400-440). -/
def find_existing_transcript (fs : FileStore) (listing : List String)
    (vid currentFolder : String) : Option ArtPath × Option ArtPath :=
  findInFolders fs vid (datetimeFolderPaths listing currentFolder)

/-- Phase 1 body for one video (ytsummary.py lines 547-582): search prior
runs for the transcript; if found, copy it (and, only with
--include-previous, a found summary) into this run's paths and mark the id
processed; otherwise call the extractor and persist a truthy result. -/
def phase1Step (cfg : RunConfig) (st : RunState) (v : Video) : RunState :=
  let tFile := ArtPath.transcript cfg.runRoot v.id
  let sFile := ArtPath.summary cfg.runRoot v.id
  match find_existing_transcript st.fs cfg.listing v.id cfg.runRoot with
  | (some tp, sOpt) =>
    let fs1 := fsWrite st.fs tFile ((fsRead st.fs tp).getD (""))
    let ev1 := st.events ++ [RunEvent.copyTranscript tp tFile]
    let next :=
      if cfg.includePrevious then
        match sOpt with
        | some sp =>
          (fsWrite fs1 sFile ((fsRead fs1 sp).getD ("")),
           ev1 ++ [RunEvent.copySummary sp sFile])
        | none => (fs1, ev1)
      else (fs1, ev1)
    { st with fs := next.1, events := next.2,
              processedIds := st.processedIds ++ [v.id] }
  | (none, _) =>
    let ev1 := st.events ++ [RunEvent.extractCall v.id]
    match cfg.extract v.id with
    | some t =>
      if t == ("") then { st with events := ev1 }
      else
        { st with fs := fsWrite st.fs tFile t,
                  events := ev1 ++ [RunEvent.writeTranscript tFile],
                  processedIds := st.processedIds ++ [v.id] }
    | none => { st with events := ev1 }

/-- Summary header block written at ytsummary.py lines 628-634. -/
def summaryHeader (cfg : RunConfig) (v : Video) : String :=
  let nl := String.mk [Char.ofNat 10]
  let dashes := String.mk (List.replicate 50 (Char.ofNat 45))
  ("Video Title: ") ++ v.title ++ nl ++
  (match v.channelId.bind cfg.handleOf with
   | some h => ("Channel Handle: ") ++ h ++ nl
   | none => ("")) ++
  ("Video ID: ") ++ v.id ++ nl ++
  ("Published At: ") ++ toString v.publishedAt ++ nl ++
  ("Summary Generated At: ") ++ cfg.now ++ nl ++
  dashes ++ nl ++ nl

/-- Phase 2 body for one video (ytsummary.py lines 590-644): skip ids in
the skipped list, short-circuit on an existing summary, skip when no
transcript exists, otherwise summarize; persist the header plus body only
when the result is nonempty and carries neither error prefix string. -/
def phase2Step (cfg : RunConfig) (st : RunState) (v : Video) : RunState :=
  if st.skippedIds.contains v.id then st
  else
    let tFile := ArtPath.transcript cfg.runRoot v.id
    let sFile := ArtPath.summary cfg.runRoot v.id
    if fsExists st.fs sFile then
      { st with summarizedIds := st.summarizedIds ++ [v.id] }
    else if !(fsExists st.fs tFile) then st
    else
      let t := (fsRead st.fs tFile).getD ("")
      let s := cfg.summarize t
      let ev1 := st.events ++ [RunEvent.summarizeCall v.id]
      if (!(s == (""))) && (!(startsWithStr s ("Error:"))) &&
         (!(startsWithStr s ("An error occurred"))) then
        { st with fs := fsWrite st.fs sFile (summaryHeader cfg v ++ s),
                  events := ev1 ++ [RunEvent.writeSummary sFile],
                  summarizedIds := st.summarizedIds ++ [v.id] }
      else { st with events := ev1 ++ [RunEvent.summaryFailed v.id] }

/-- Phase 1 over the resolved list, in order. -/
def phase1 (cfg : RunConfig) (videos : List Video) (st : RunState) : RunState :=
  videos.foldl (phase1Step cfg) st

/-- Phase 2 over the resolved list, in order. -/
def phase2 (cfg : RunConfig) (videos : List Video) (st : RunState) : RunState :=
  videos.foldl (phase2Step cfg) st

/-- The two-phase pipeline of main: all of Phase 1, then all of Phase 2,
over the same resolved list. -/
def runPipeline (cfg : RunConfig) (videos : List Video) (fs0 : FileStore) :
    RunState :=
  phase2 cfg videos (phase1 cfg videos (initState fs0))

/-! ## Counting helpers used in the claims -/

/-- Does this event write a transcript artifact at path p (fresh write or
prior-run copy)? -/
def isTranscriptWriteTo (p : ArtPath) : RunEvent → Bool
  | RunEvent.writeTranscript q => decide (q = p)
  | RunEvent.copyTranscript _ q => decide (q = p)
  | _ => false

/-- Number of transcript writes to path p in an event trace. -/
def transcriptWriteCount (evs : List RunEvent) (p : ArtPath) : Nat :=
  (evs.filter (isTranscriptWriteTo p)).length

/-- Number of extractor invocations for a video id in an event trace. -/
def extractCallCount (evs : List RunEvent) (vid : String) : Nat :=
  (evs.filter (fun e => decide (e = RunEvent.extractCall vid))).length

/-- Number of summarizer invocations for a video id in an event trace. -/
def summarizeCallCount (evs : List RunEvent) (vid : String) : Nat :=
  (evs.filter (fun e => decide (e = RunEvent.summarizeCall vid))).length

/-- True when no event of the trace writes any artifact keyed by vid. -/
def noWritesFor (vid : String) (evs : List RunEvent) : Bool :=
  evs.all (fun e => (writeTargets e).all (fun p => !(decide (pathVideoId p = vid))))

/-- An error-shaped summarization result: either error prefix produced by
summarize_with_openrouter (missing prompt file, or a caught request
failure), as inspected at ytsummary.py line 620. -/
def errShaped (s : String) : Bool :=
  startsWithStr s ("Error:") || startsWithStr s ("An error occurred")

/-- Occurrences of an id in a list of ids. -/
def idCount (vid : String) (l : List String) : Nat :=
  (l.filter (fun x => decide (x = vid))).length

/-- Resolver described by the amended claim C7: explicit ids are fetched,
live ones are skipped, and no date filtering of any kind occurs. -/
def resolveVideoIdsNoCutoff (oracle : String → Option YtVideoItem)
    (inputs : List String) : List Video :=
  inputs.foldl (fun acc vid =>
    match get_video_details oracle vid with
    | none => acc
    | some vd => if vd.isLiveContent then acc else acc ++ [vd]) []

/-! ## Concrete fixtures for counterexamples and witnesses -/

/-- A channel environment with one channel of one recent video. -/
def envA : ChannelEnv :=
  { lookup := fun h => if h == ("@chanA") then some ("UC1") else none,
    pages := fun _ => [[{ videoId := ("V1"), title := ("t1"), publishedAt := (5 : Int) }]],
    isLive := fun _ => false }

/-- The video descriptor envA resolves for V1. -/
def vidV1 : Video :=
  { id := ("V1"), title := ("t1"), publishedAt := (5 : Int),
    isLiveContent := false, channelId := some ("UC1") }

/-- A run configuration with no prior runs, a working extractor and a
working summarizer. -/
def cfgFresh : RunConfig :=
  { extract := fun _ => some ("hello world"),
    summarize := fun _ => ("a fine summary"),
    handleOf := fun _ => none,
    listing := [],
    runRoot := ("processed/010125_1200"),
    includePrevious := false,
    now := ("now") }

/-- A run configuration whose prior-runs listing contains one datetime
folder holding a transcript (and no summary) for V123. -/
def cfgPrior : RunConfig :=
  { cfgFresh with listing := [("010124_0900")], runRoot := ("processed/010125_1200") }

/-- The prior-run filesystem for the cfgPrior scenario. -/
def fsPrior : FileStore :=
  [(ArtPath.transcript ("processed/010124_0900") ("V123"), ("old words"))]

/-- The prior-run transcript path of V123 in the cfgPrior scenario. -/
def tpPrior : ArtPath := ArtPath.transcript ("processed/010124_0900") ("V123")

/-- The descriptor of the video V123 reused across runs. -/
def vidV123 : Video :=
  { id := ("V123"), title := ("t123"), publishedAt := (7 : Int),
    isLiveContent := false, channelId := none }

/-- Upload listing for the cutoff claim: newest-first, the second item of
the first page is already older than cutoff 3, one further page exists. -/
def pagesCutoff : List (List PlaylistItem) :=
  [[{ videoId := ("N1"), title := ("new"), publishedAt := (5 : Int) },
    { videoId := ("O1"), title := ("older"), publishedAt := (1 : Int) }],
   [{ videoId := ("O2"), title := ("oldest"), publishedAt := (0 : Int) }]]

/-- Decidable newest-first check over a flattened listing. -/
def descOk : List PlaylistItem → Bool
  | [] => true
  | [_] => true
  | a :: b :: r => (decide (b.publishedAt ≤ a.publishedAt)) && descOk (b :: r)

/-- Detail oracle for the explicit-id claims: V1 is an ordinary old video,
L2 carries liveStreamingDetails. -/
def oracleExp : String → Option YtVideoItem :=
  fun vid =>
    if vid == ("V1") then
      some { title := ("t1"), publishedAt := (5 : Int),
             hasLiveStreamingDetails := false, channelId := ("UC1") }
    else if vid == ("L2") then
      some { title := ("t2"), publishedAt := (500 : Int),
             hasLiveStreamingDetails := true, channelId := ("UC1") }
    else none

/-- A configuration whose summarizer always fails with the missing-prompt
error shape. -/
def cfgErr : RunConfig :=
  { cfgFresh with summarize := fun _ => ("Error: prompt.txt file not found.") }

/-- A configuration whose extractor finds no subtitles. -/
def cfgNoSub : RunConfig :=
  { cfgFresh with extract := fun _ => none }

/-- The video V2 of the report scenario (its extraction returns absent). -/
def vidV2 : Video :=
  { id := ("V2"), title := ("t2"), publishedAt := (6 : Int),
    isLiveContent := false, channelId := none }

/-- Initial Phase 2 state holding a transcript for V1 at the current run's
path (for the failed-summarization scenario). -/
def stErr : RunState :=
  initState [(ArtPath.transcript ("processed/010125_1200") ("V1"), ("words"))]

/-- A subtitle retrieval whose payload parses to the empty transcript:
every line is a header, blank, cue index, timing line, or reduces to empty
after tag stripping. -/
def subEmpty : String → Option String :=
  fun _ => some ("WEBVTT\n\n2\n00:00 --> 00:01\n<c></c>")

/-- A run configuration whose extractor is get_transcript over subEmpty. -/
def cfgEmptyParse : RunConfig :=
  { cfgFresh with extract := get_transcript subEmpty }

/-! ## Theorems -/

/-- The parser embedding reproduces a typical payload, repeats preserved. -/
example : parseVtt ("WEBVTT\nNOTE hi\n1\n00:00 --> 00:01\n<c>hey</c> there\nhey there") = ("hey there hey there") := by decide

/-- C1 counterexample: resolving the inputs @chanA, @chanA (one channel
with one recent non-live video V1) yields V1 twice, not exactly once —
the resolver performs no deduplication by id. -/
theorem c1_counterexample :
    ((resolveChannels envA 0 [("@chanA"), ("@chanA")]).map (fun v => v.id))
      = [("V1"), ("V1")]
    ∧ idCount (("V1"))
        ((resolveChannels envA 0 [("@chanA"), ("@chanA")]).map (fun v => v.id)) = 2 := by
  decide

/-- C1 amended: the resolved video list is exactly the concatenation of the
per-input results in input order, with no deduplication; this concatenated
list (in this order) is what both pipeline phases fold over. -/
theorem c1_resolution_is_concatenation (env : ChannelEnv) (cutoff : Int)
    (inputs : List String) :
    resolveChannels env cutoff inputs = (inputs.map (inputVideos env cutoff)).flatten := by
  have aux : ∀ (l : List String) (acc : List Video),
      List.foldl (fun acc h =>
        match env.lookup h with
        | none => acc
        | some cid =>
          let vids := channelVideos env cutoff cid
          if vids.isEmpty then acc else acc ++ vids) acc l
      = acc ++ (l.map (inputVideos env cutoff)).flatten := by
    intro l
    induction l with
    | nil => intro acc; simp
    | cons h rest ih =>
      intro acc
      rw [List.foldl_cons, ih]
      cases hl : env.lookup h with
      | none => simp [inputVideos, hl]
      | some cid =>
        cases hcv : channelVideos env cutoff cid with
        | nil => simp [inputVideos, hl, hcv]
        | cons a t => simp [inputVideos, hl, hcv]
  unfold resolveChannels
  rw [aux, List.nil_append]

/-- C4 (code bug): over a newest-first listing whose first page already
contains an item older than the cutoff 3, the current get_channel_videos
still requests the second page (2 pages requested) although no item older
than the cutoff reaches the returned list; the legacy variant stops after
the first page as the spec describes. -/
theorem c4_extra_page_after_cutoff :
    descOk pagesCutoff.flatten = true
    ∧ ((pagesCutoff.headD []).any (fun it => decide (it.publishedAt < 3))) = true
    ∧ (get_channel_videos (fun _ => false) ("UC") 3 pagesCutoff).2 = 2
    ∧ ((get_channel_videos (fun _ => false) ("UC") 3 pagesCutoff).1.map (fun v => v.id))
        = [("N1")]
    ∧ (get_channel_videos_legacy 3 pagesCutoff).2 = 1 := by
  decide

/-- C7 counterexample: in explicit-id mode with days = 1 and a video
published at 5, older than the cutoff 100, the video is retained in the
resolved list — the date filter never fires on this branch. -/
theorem c7_counterexample :
    ((oracleExp (("V1"))).map (fun it => it.publishedAt)) = some (5 : Int)
    ∧ ((5 : Int) < 100)
    ∧ ((0 : Int) < 1)
    ∧ ((resolveVideoIds oracleExp true 1 100 [("V1")]).map (fun v => v.id)) = [("V1")] := by
  refine ⟨by decide, by decide, by decide, by decide⟩

/-- C7 amended: in explicit-id mode, cutoff filtering against publishedAt
is never applied — the resolved list does not depend on the days value or
the cutoff at all, because the guard also requires non-explicit-id mode. -/
theorem c7_explicit_ids_exempt_from_cutoff (oracle : String → Option YtVideoItem)
    (days cutoff : Int) (inputs : List String) :
    resolveVideoIds oracle true days cutoff inputs
      = resolveVideoIdsNoCutoff oracle inputs := by
  rfl

/-- C8 counterexample: on the payload WEBVTT / NOTE hi / hello, the source
parser drops the NOTE comment line while the parser transcribed from the
claim's list of discard categories keeps it, so the claim's description is
not exact. -/
theorem c8_counterexample :
    parseVtt ("WEBVTT\nNOTE hi\nhello") = ("hello")
    ∧ specParseVtt ("WEBVTT\nNOTE hi\nhello") = ("NOTE hi hello")
    ∧ ¬ (parseVtt ("WEBVTT\nNOTE hi\nhello")
          = specParseVtt ("WEBVTT\nNOTE hi\nhello")) := by
  refine ⟨by decide, by decide, by decide⟩

/-- The keep condition of the source parser is the negation of the amended
discard classification. -/
theorem vttKeep_eq_not_amendedDiscard (l : String) :
    vttKeep l = !(amendedDiscard l) := by
  unfold vttKeep amendedDiscard
  cases (l == ("")) <;> cases startsWithStr l ("WEBVTT") <;>
    cases startsWithStr l ("NOTE") <;> cases containsStr l ("-->") <;>
    cases pyIsDigit l <;> rfl

/-- The source accumulation loop equals the staged pipeline of the amended
claim: strip, discard the amended categories, strip tags, drop emptied
lines — with the accumulator prepended. -/
theorem vttLoop_cons (acc : List String) (raw : String) (rest : List String) :
    vttLoop acc (raw :: rest)
      = if vttKeep (pyStrip raw) then
          (if !(stripVttTags (pyStrip raw) == ("")) then
            vttLoop (acc ++ [stripVttTags (pyStrip raw)]) rest
          else vttLoop acc rest)
        else vttLoop acc rest := rfl

theorem vttLoop_staged (lines : List String) : ∀ acc : List String,
    vttLoop acc lines
      = acc ++ ((((lines.map pyStrip).filter
          (fun l => !(amendedDiscard l))).map stripVttTags).filter
            (fun l => !(l == ("")))) := by
  induction lines with
  | nil => intro acc; simp [vttLoop]
  | cons raw rest ih =>
    intro acc
    rw [vttLoop_cons]
    by_cases hk : vttKeep (pyStrip raw) = true
    · have hd : (!(amendedDiscard (pyStrip raw))) = true := by
        rw [← vttKeep_eq_not_amendedDiscard]; exact hk
      rw [if_pos hk]
      by_cases hc : (stripVttTags (pyStrip raw) == ("")) = true
      · have hc2 : (!(stripVttTags (pyStrip raw) == (""))) = false := by
          rw [hc]; rfl
        rw [if_neg (by simp [hc2]), ih]
        simp [List.filter_cons, hd, hc2]
      · have hc2 : (!(stripVttTags (pyStrip raw) == (""))) = true := by
          cases hb : (stripVttTags (pyStrip raw) == ("")) with
          | false => rfl
          | true => exact absurd hb hc
        rw [if_pos hc2, ih]
        simp [List.filter_cons, hd, hc2, List.append_assoc]
    · have hk2 : vttKeep (pyStrip raw) = false := by
        cases hb : vttKeep (pyStrip raw) with
        | false => rfl
        | true => exact absurd hb hk
      have hd : (!(amendedDiscard (pyStrip raw))) = false := by
        rw [← vttKeep_eq_not_amendedDiscard]; exact hk2
      rw [if_neg hk, ih]
      simp [List.filter_cons, hd]

/-- C8 amended: for every payload, the source VTT parser coincides with the
claim's staged description once NOTE comment lines (and any line starting
with WEBVTT) are added to the discarded categories: discard header, NOTE
comments, timing lines, blanks and numeric cue indices, strip bold, italic
and speaker-color tags, drop lines emptied by stripping, and join the rest
with single spaces in original order, repeats preserved. -/
theorem c8_parser_matches_amended_spec (content : String) :
    parseVtt content = amendedSpecParseVtt content := by
  unfold parseVtt amendedSpecParseVtt
  rw [vttLoop_staged, List.nil_append]

/-- C9 (code bug): for a single resolved video V2 whose transcript
extraction returns absent, the run's final report lists V2 neither under
skipped (the skipped list stays empty: nothing is ever appended to it) nor
anywhere else, although the spec requires V2 to be listed under skipped. -/
theorem c9_skipped_list_never_populated :
    cfgNoSub.extract (("V2")) = none
    ∧ (runPipeline cfgNoSub [vidV2] []).skippedIds = []
    ∧ (runPipeline cfgNoSub [vidV2] []).processedIds = []
    ∧ (runPipeline cfgNoSub [vidV2] []).summarizedIds = []
    ∧ fsExists (runPipeline cfgNoSub [vidV2] []).fs
        (ArtPath.transcript ("processed/010125_1200") ("V2")) = false := by
  refine ⟨by decide, by decide, by decide, by decide, by decide⟩

/-- C2 counterexample: with no prior runs and the resolved list containing
V1 twice, the transcript of V1 already exists at the current run's path
after the first Phase 1 step, yet the second step invokes the extractor
again (two extractor calls) and writes the transcript path a second time —
Phase 1 never checks the current run's transcript path. -/
theorem c2_counterexample :
    fsExists (phase1Step cfgFresh (initState []) vidV1).fs
      (ArtPath.transcript ("processed/010125_1200") ("V1")) = true
    ∧ extractCallCount
        (phase1Step cfgFresh (phase1Step cfgFresh (initState []) vidV1) vidV1).events
        (("V1")) = 2
    ∧ transcriptWriteCount (phase1 cfgFresh [vidV1, vidV1] (initState [])).events
        (ArtPath.transcript ("processed/010125_1200") ("V1")) = 2 := by
  refine ⟨by decide, by decide, by decide⟩

/-! ## Branch equations for the phase bodies -/

/-- Phase 1, prior transcript found, --include-previous off: copy the
transcript only. -/
theorem phase1Step_found_noinc (cfg : RunConfig) (st : RunState) (v : Video)
    (tp : ArtPath) (sOpt : Option ArtPath)
    (h : find_existing_transcript st.fs cfg.listing v.id cfg.runRoot = (some tp, sOpt))
    (hip : cfg.includePrevious = false) :
    phase1Step cfg st v
      = { st with
          fs := fsWrite st.fs (ArtPath.transcript cfg.runRoot v.id)
                  ((fsRead st.fs tp).getD ("")),
          events := st.events
            ++ [RunEvent.copyTranscript tp (ArtPath.transcript cfg.runRoot v.id)],
          processedIds := st.processedIds ++ [v.id] } := by
  simp only [phase1Step, h, hip, Bool.false_eq_true, if_false]

/-- Phase 1, prior transcript found without a prior summary: copy the
transcript only, whatever the flag. -/
theorem phase1Step_found_nosum (cfg : RunConfig) (st : RunState) (v : Video)
    (tp : ArtPath)
    (h : find_existing_transcript st.fs cfg.listing v.id cfg.runRoot = (some tp, none)) :
    phase1Step cfg st v
      = { st with
          fs := fsWrite st.fs (ArtPath.transcript cfg.runRoot v.id)
                  ((fsRead st.fs tp).getD ("")),
          events := st.events
            ++ [RunEvent.copyTranscript tp (ArtPath.transcript cfg.runRoot v.id)],
          processedIds := st.processedIds ++ [v.id] } := by
  simp only [phase1Step, h]
  cases cfg.includePrevious <;> simp

/-- Phase 1, prior transcript and summary found with --include-previous:
copy both. -/
theorem phase1Step_found_inc (cfg : RunConfig) (st : RunState) (v : Video)
    (tp sp : ArtPath)
    (h : find_existing_transcript st.fs cfg.listing v.id cfg.runRoot = (some tp, some sp))
    (hip : cfg.includePrevious = true) :
    phase1Step cfg st v
      = { st with
          fs := fsWrite
                  (fsWrite st.fs (ArtPath.transcript cfg.runRoot v.id)
                    ((fsRead st.fs tp).getD ("")))
                  (ArtPath.summary cfg.runRoot v.id)
                  ((fsRead (fsWrite st.fs (ArtPath.transcript cfg.runRoot v.id)
                    ((fsRead st.fs tp).getD (""))) sp).getD ("")),
          events := st.events
            ++ [RunEvent.copyTranscript tp (ArtPath.transcript cfg.runRoot v.id),
                RunEvent.copySummary sp (ArtPath.summary cfg.runRoot v.id)],
          processedIds := st.processedIds ++ [v.id] } := by
  simp only [phase1Step, h, hip, if_true]
  simp [List.append_assoc]

/-- Phase 1, no prior transcript, extraction succeeds with nonempty text:
persist it. -/
theorem phase1Step_extract_ok (cfg : RunConfig) (st : RunState) (v : Video)
    (sOpt : Option ArtPath) (t : String)
    (h : find_existing_transcript st.fs cfg.listing v.id cfg.runRoot = (none, sOpt))
    (hx : cfg.extract v.id = some t) (ht : (t == ("")) = false) :
    phase1Step cfg st v
      = { st with
          fs := fsWrite st.fs (ArtPath.transcript cfg.runRoot v.id) t,
          events := st.events
            ++ [RunEvent.extractCall v.id,
                RunEvent.writeTranscript (ArtPath.transcript cfg.runRoot v.id)],
          processedIds := st.processedIds ++ [v.id] } := by
  simp only [phase1Step, h, hx, ht, Bool.false_eq_true, if_false]
  simp

/-- Phase 1, no prior transcript, extraction returns the empty string:
treated as a failure, nothing written. -/
theorem phase1Step_extract_empty (cfg : RunConfig) (st : RunState) (v : Video)
    (sOpt : Option ArtPath) (t : String)
    (h : find_existing_transcript st.fs cfg.listing v.id cfg.runRoot = (none, sOpt))
    (hx : cfg.extract v.id = some t) (ht : (t == ("")) = true) :
    phase1Step cfg st v
      = { st with events := st.events ++ [RunEvent.extractCall v.id] } := by
  simp only [phase1Step, h, hx, ht, if_true]

/-- Phase 1, no prior transcript, extraction absent: nothing written. -/
theorem phase1Step_extract_none (cfg : RunConfig) (st : RunState) (v : Video)
    (sOpt : Option ArtPath)
    (h : find_existing_transcript st.fs cfg.listing v.id cfg.runRoot = (none, sOpt))
    (hx : cfg.extract v.id = none) :
    phase1Step cfg st v
      = { st with events := st.events ++ [RunEvent.extractCall v.id] } := by
  simp only [phase1Step, h, hx]

/-- Phase 2, id in the skipped list: untouched. -/
theorem phase2Step_skip (cfg : RunConfig) (st : RunState) (v : Video)
    (h : st.skippedIds.contains v.id = true) :
    phase2Step cfg st v = st := by
  simp only [phase2Step, h, if_true]

/-- Phase 2, summary already at this run's path: mark summarized only. -/
theorem phase2Step_sum_exists (cfg : RunConfig) (st : RunState) (v : Video)
    (h0 : st.skippedIds.contains v.id = false)
    (hs : fsExists st.fs (ArtPath.summary cfg.runRoot v.id) = true) :
    phase2Step cfg st v = { st with summarizedIds := st.summarizedIds ++ [v.id] } := by
  simp only [phase2Step, h0, hs, Bool.false_eq_true, if_false, if_true]

/-- Phase 2, no summary and no transcript at this run's paths: skipped with
a diagnostic, state untouched. -/
theorem phase2Step_no_transcript (cfg : RunConfig) (st : RunState) (v : Video)
    (h0 : st.skippedIds.contains v.id = false)
    (hs : fsExists st.fs (ArtPath.summary cfg.runRoot v.id) = false)
    (htr : fsExists st.fs (ArtPath.transcript cfg.runRoot v.id) = false) :
    phase2Step cfg st v = st := by
  simp only [phase2Step, h0, hs, htr, Bool.false_eq_true, if_false, Bool.not_false, if_true]

/-- Phase 2, transcript present, summarizer returns a valid body: persist
header plus body and mark summarized. -/
theorem phase2Step_success (cfg : RunConfig) (st : RunState) (v : Video)
    (h0 : st.skippedIds.contains v.id = false)
    (hs : fsExists st.fs (ArtPath.summary cfg.runRoot v.id) = false)
    (htr : fsExists st.fs (ArtPath.transcript cfg.runRoot v.id) = true)
    (hok : ((!(cfg.summarize ((fsRead st.fs (ArtPath.transcript cfg.runRoot v.id)).getD ("")) == ("")))
        && (!(startsWithStr (cfg.summarize ((fsRead st.fs (ArtPath.transcript cfg.runRoot v.id)).getD (""))) ("Error:")))
        && (!(startsWithStr (cfg.summarize ((fsRead st.fs (ArtPath.transcript cfg.runRoot v.id)).getD (""))) ("An error occurred")))) = true) :
    phase2Step cfg st v
      = { st with
          fs := fsWrite st.fs (ArtPath.summary cfg.runRoot v.id)
                  (summaryHeader cfg v
                    ++ cfg.summarize ((fsRead st.fs (ArtPath.transcript cfg.runRoot v.id)).getD (""))),
          events := st.events
            ++ [RunEvent.summarizeCall v.id,
                RunEvent.writeSummary (ArtPath.summary cfg.runRoot v.id)],
          summarizedIds := st.summarizedIds ++ [v.id] } := by
  simp only [phase2Step, h0, hs, htr, hok, Bool.false_eq_true, if_false,
    Bool.not_true, if_true]
  simp [List.append_assoc]

/-- Phase 2, transcript present, summarizer result empty or error-shaped:
nothing persisted, diagnostic recorded. -/
theorem phase2Step_failure (cfg : RunConfig) (st : RunState) (v : Video)
    (h0 : st.skippedIds.contains v.id = false)
    (hs : fsExists st.fs (ArtPath.summary cfg.runRoot v.id) = false)
    (htr : fsExists st.fs (ArtPath.transcript cfg.runRoot v.id) = true)
    (hbad : ((!(cfg.summarize ((fsRead st.fs (ArtPath.transcript cfg.runRoot v.id)).getD ("")) == ("")))
        && (!(startsWithStr (cfg.summarize ((fsRead st.fs (ArtPath.transcript cfg.runRoot v.id)).getD (""))) ("Error:")))
        && (!(startsWithStr (cfg.summarize ((fsRead st.fs (ArtPath.transcript cfg.runRoot v.id)).getD (""))) ("An error occurred")))) = false) :
    phase2Step cfg st v
      = { st with
          events := st.events
            ++ [RunEvent.summarizeCall v.id, RunEvent.summaryFailed v.id] } := by
  simp only [phase2Step, h0, hs, htr, hbad, Bool.false_eq_true, if_false,
    Bool.not_true, if_true]
  simp [List.append_assoc]

/-! ## Event-trace decomposition of the phase bodies -/

/-- Transcript-write counts add over trace concatenation. -/
theorem twc_append (a b : List RunEvent) (p : ArtPath) :
    transcriptWriteCount (a ++ b) p
      = transcriptWriteCount a p + transcriptWriteCount b p := by
  simp [transcriptWriteCount, List.filter_append]

/-- One Phase 1 step appends a short trace that writes transcripts at most
once, only to this video's transcript path, and writes only paths keyed by
this video's id. -/
theorem phase1Step_events (cfg : RunConfig) (st : RunState) (v : Video) :
    ∃ l : List RunEvent,
      (phase1Step cfg st v).events = st.events ++ l
      ∧ (∀ p, transcriptWriteCount l p
          ≤ if ArtPath.transcript cfg.runRoot v.id = p then 1 else 0)
      ∧ (∀ e ∈ l, ∀ q ∈ writeTargets e, pathVideoId q = v.id) := by
  rcases hfind : find_existing_transcript st.fs cfg.listing v.id cfg.runRoot with ⟨tpOpt, sOpt⟩
  cases tpOpt with
  | some tp =>
    cases hip : cfg.includePrevious with
    | false =>
      refine ⟨[RunEvent.copyTranscript tp (ArtPath.transcript cfg.runRoot v.id)], ?_, ?_, ?_⟩
      · rw [phase1Step_found_noinc cfg st v tp sOpt hfind hip]
      · intro p
        by_cases hp : ArtPath.transcript cfg.runRoot v.id = p <;>
          simp [transcriptWriteCount, isTranscriptWriteTo, hp]
      · intro e he q hq
        simp only [List.mem_singleton] at he
        subst he
        simp only [writeTargets, List.mem_singleton] at hq
        subst hq
        rfl
    | true =>
      cases sOpt with
      | none =>
        refine ⟨[RunEvent.copyTranscript tp (ArtPath.transcript cfg.runRoot v.id)], ?_, ?_, ?_⟩
        · rw [phase1Step_found_nosum cfg st v tp hfind]
        · intro p
          by_cases hp : ArtPath.transcript cfg.runRoot v.id = p <;>
            simp [transcriptWriteCount, isTranscriptWriteTo, hp]
        · intro e he q hq
          simp only [List.mem_singleton] at he
          subst he
          simp only [writeTargets, List.mem_singleton] at hq
          subst hq
          rfl
      | some sp =>
        refine ⟨[RunEvent.copyTranscript tp (ArtPath.transcript cfg.runRoot v.id),
                 RunEvent.copySummary sp (ArtPath.summary cfg.runRoot v.id)], ?_, ?_, ?_⟩
        · rw [phase1Step_found_inc cfg st v tp sp hfind hip]
        · intro p
          by_cases hp : ArtPath.transcript cfg.runRoot v.id = p <;>
            simp [transcriptWriteCount, isTranscriptWriteTo, hp]
        · intro e he q hq
          rcases List.mem_cons.mp he with he | he
          · subst he
            simp only [writeTargets, List.mem_singleton] at hq
            subst hq
            rfl
          · simp only [List.mem_singleton] at he
            subst he
            simp only [writeTargets, List.mem_singleton] at hq
            subst hq
            rfl
  | none =>
    cases hx : cfg.extract v.id with
    | some t =>
      cases ht : (t == ("")) with
      | true =>
        refine ⟨[RunEvent.extractCall v.id], ?_, ?_, ?_⟩
        · rw [phase1Step_extract_empty cfg st v sOpt t hfind hx ht]
        · intro p; simp [transcriptWriteCount, isTranscriptWriteTo]
        · intro e he q hq
          simp only [List.mem_singleton] at he
          subst he
          simp [writeTargets] at hq
      | false =>
        refine ⟨[RunEvent.extractCall v.id,
                 RunEvent.writeTranscript (ArtPath.transcript cfg.runRoot v.id)], ?_, ?_, ?_⟩
        · rw [phase1Step_extract_ok cfg st v sOpt t hfind hx ht]
        · intro p
          by_cases hp : ArtPath.transcript cfg.runRoot v.id = p <;>
            simp [transcriptWriteCount, isTranscriptWriteTo, hp]
        · intro e he q hq
          rcases List.mem_cons.mp he with he | he
          · subst he
            simp [writeTargets] at hq
          · simp only [List.mem_singleton] at he
            subst he
            simp only [writeTargets, List.mem_singleton] at hq
            subst hq
            rfl
    | none =>
      refine ⟨[RunEvent.extractCall v.id], ?_, ?_, ?_⟩
      · rw [phase1Step_extract_none cfg st v sOpt hfind hx]
      · intro p; simp [transcriptWriteCount, isTranscriptWriteTo]
      · intro e he q hq
        simp only [List.mem_singleton] at he
        subst he
        simp [writeTargets] at hq

/-- One Phase 2 step appends a short trace that never writes transcripts
and writes only paths keyed by this video's id. -/
theorem phase2Step_events (cfg : RunConfig) (st : RunState) (v : Video) :
    ∃ l : List RunEvent,
      (phase2Step cfg st v).events = st.events ++ l
      ∧ (∀ p, transcriptWriteCount l p = 0)
      ∧ (∀ e ∈ l, ∀ q ∈ writeTargets e, pathVideoId q = v.id) := by
  cases h0 : st.skippedIds.contains v.id with
  | true =>
    refine ⟨[], ?_, ?_, ?_⟩
    · rw [phase2Step_skip cfg st v h0]; simp
    · intro p; simp [transcriptWriteCount]
    · intro e he; simp at he
  | false =>
    cases hs : fsExists st.fs (ArtPath.summary cfg.runRoot v.id) with
    | true =>
      refine ⟨[], ?_, ?_, ?_⟩
      · rw [phase2Step_sum_exists cfg st v h0 hs]; simp
      · intro p; simp [transcriptWriteCount]
      · intro e he; simp at he
    | false =>
      cases htr : fsExists st.fs (ArtPath.transcript cfg.runRoot v.id) with
      | false =>
        refine ⟨[], ?_, ?_, ?_⟩
        · rw [phase2Step_no_transcript cfg st v h0 hs htr]; simp
        · intro p; simp [transcriptWriteCount]
        · intro e he; simp at he
      | true =>
        cases hok : ((!(cfg.summarize ((fsRead st.fs (ArtPath.transcript cfg.runRoot v.id)).getD ("")) == ("")))
            && (!(startsWithStr (cfg.summarize ((fsRead st.fs (ArtPath.transcript cfg.runRoot v.id)).getD (""))) ("Error:")))
            && (!(startsWithStr (cfg.summarize ((fsRead st.fs (ArtPath.transcript cfg.runRoot v.id)).getD (""))) ("An error occurred")))) with
        | true =>
          refine ⟨[RunEvent.summarizeCall v.id,
                   RunEvent.writeSummary (ArtPath.summary cfg.runRoot v.id)], ?_, ?_, ?_⟩
          · rw [phase2Step_success cfg st v h0 hs htr hok]
          · intro p; simp [transcriptWriteCount, isTranscriptWriteTo]
          · intro e he q hq
            rcases List.mem_cons.mp he with he | he
            · subst he
              simp [writeTargets] at hq
            · simp only [List.mem_singleton] at he
              subst he
              simp only [writeTargets, List.mem_singleton] at hq
              subst hq
              rfl
        | false =>
          refine ⟨[RunEvent.summarizeCall v.id, RunEvent.summaryFailed v.id], ?_, ?_, ?_⟩
          · rw [phase2Step_failure cfg st v h0 hs htr hok]
          · intro p; simp [transcriptWriteCount, isTranscriptWriteTo]
          · intro e he q hq
            rcases List.mem_cons.mp he with he | he
            · subst he
              simp [writeTargets] at hq
            · simp only [List.mem_singleton] at he
              subst he
              simp [writeTargets] at hq

/-! ## Fold-level counting lemmas -/

/-- An id absent from a list is counted zero times. -/
theorem idCount_eq_zero_of_not_mem (vid : String) (l : List String)
    (h : vid ∉ l) : idCount vid l = 0 := by
  induction l with
  | nil => rfl
  | cons x t ih =>
    have hx : ¬ (x = vid) := by
      intro hxe
      exact h (by rw [← hxe]; exact List.mem_cons_self x t)
    have ht : vid ∉ t := fun hm => h (List.mem_cons_of_mem x hm)
    simp [idCount, List.filter_cons, hx] at ih ⊢
    exact ih ht

/-- Unfolding of idCount over a cons cell. -/
theorem idCount_cons (vid x : String) (t : List String) :
    idCount vid (x :: t) = (if x = vid then 1 else 0) + idCount vid t := by
  by_cases hx : x = vid
  · simp [idCount, List.filter_cons, hx, Nat.add_comm]
  · simp [idCount, List.filter_cons, hx]

/-- In a duplicate-free list every id is counted at most once. -/
theorem idCount_le_one_of_nodup (vid : String) (l : List String)
    (h : l.Nodup) : idCount vid l ≤ 1 := by
  induction l with
  | nil => simp [idCount]
  | cons x t ih =>
    rw [List.nodup_cons] at h
    rw [idCount_cons]
    by_cases hx : x = vid
    · have h0 : idCount vid t = 0 := by
        apply idCount_eq_zero_of_not_mem
        rw [← hx]
        exact h.1
      rw [if_pos hx, h0]
    · have := ih h.2
      rw [if_neg hx]
      omega

/-- Phase 1 adds at most one transcript write per occurrence of the id in
the resolved list. -/
theorem phase1_twc_le (cfg : RunConfig) (videos : List Video) :
    ∀ (st : RunState) (vid : String),
      transcriptWriteCount (phase1 cfg videos st).events (ArtPath.transcript cfg.runRoot vid)
        ≤ transcriptWriteCount st.events (ArtPath.transcript cfg.runRoot vid)
          + idCount vid (videos.map (fun v => v.id)) := by
  induction videos with
  | nil => intro st vid; simp [phase1, idCount]
  | cons v rest ih =>
    intro st vid
    have hstep : phase1 cfg (v :: rest) st = phase1 cfg rest (phase1Step cfg st v) := rfl
    rw [hstep]
    obtain ⟨l, hl, hcnt, _⟩ := phase1Step_events cfg st v
    have h1 := ih (phase1Step cfg st v) vid
    have h2 : transcriptWriteCount (phase1Step cfg st v).events (ArtPath.transcript cfg.runRoot vid)
        = transcriptWriteCount st.events (ArtPath.transcript cfg.runRoot vid)
          + transcriptWriteCount l (ArtPath.transcript cfg.runRoot vid) := by
      rw [hl, twc_append]
    have h3 : transcriptWriteCount l (ArtPath.transcript cfg.runRoot vid)
        ≤ if v.id = vid then 1 else 0 := by
      have := hcnt (ArtPath.transcript cfg.runRoot vid)
      by_cases hv : v.id = vid
      · subst hv
        simpa using this
      · have hne : ¬ (ArtPath.transcript cfg.runRoot v.id = ArtPath.transcript cfg.runRoot vid) := by
          intro hcon
          exact hv (by injection hcon)
        simp [hne] at this
        simp [hv, this]
    have h4 : idCount vid ((v :: rest).map (fun w => w.id))
        = (if v.id = vid then 1 else 0) + idCount vid (rest.map (fun w => w.id)) := by
      rw [List.map_cons, idCount_cons]
    rw [h4]
    omega

/-- Phase 2 never changes the transcript-write count of any path. -/
theorem phase2_twc_eq (cfg : RunConfig) (videos : List Video) :
    ∀ (st : RunState) (p : ArtPath),
      transcriptWriteCount (phase2 cfg videos st).events p
        = transcriptWriteCount st.events p := by
  induction videos with
  | nil => intro st p; simp [phase2]
  | cons v rest ih =>
    intro st p
    have hstep : phase2 cfg (v :: rest) st = phase2 cfg rest (phase2Step cfg st v) := rfl
    rw [hstep, ih]
    obtain ⟨l, hl, hcnt, _⟩ := phase2Step_events cfg st v
    rw [hl, twc_append, hcnt]
    omega

/-- C2 amended: Phase 1 never consults the current run's transcript path
(the counterexample shows a repeated id is re-extracted and its transcript
rewritten); but whenever the resolved ids are pairwise distinct, each
transcript path of the run is written at most once over the whole pipeline
— so a transcript artifact, once written, is never overwritten within the
run. -/
theorem c2_distinct_ids_no_overwrite (cfg : RunConfig) (videos : List Video)
    (fs0 : FileStore) (hnd : (videos.map (fun v => v.id)).Nodup) (vid : String) :
    transcriptWriteCount (runPipeline cfg videos fs0).events
      (ArtPath.transcript cfg.runRoot vid) ≤ 1 := by
  unfold runPipeline
  rw [phase2_twc_eq]
  have h1 := phase1_twc_le cfg videos (initState fs0) vid
  have h2 : transcriptWriteCount (initState fs0).events (ArtPath.transcript cfg.runRoot vid) = 0 := by
    simp [initState, transcriptWriteCount]
  have h3 := idCount_le_one_of_nodup vid (videos.map (fun v => v.id)) hnd
  omega

/-- Witness for the amended C2 at a concrete run with distinct ids. -/
theorem c2_distinct_ids_no_overwrite_witness :
    transcriptWriteCount (runPipeline cfgFresh [vidV1, vidV2] []).events
      (ArtPath.transcript ("processed/010125_1200") ("V1")) ≤ 1 :=
  c2_distinct_ids_no_overwrite cfgFresh [vidV1, vidV2] [] (by decide) ("V1")

/-! ## Filesystem helper lemmas -/

/-- Reading back a freshly written path yields the written content. -/
theorem fsRead_write_self (fs : FileStore) (p : ArtPath) (c : String) :
    fsRead (fsWrite fs p c) p = some c := by
  simp [fsWrite, fsRead]

/-- Writing one path leaves every other path unchanged. -/
theorem fsRead_write_ne (fs : FileStore) (p q : ArtPath) (c : String)
    (h : ¬ p = q) : fsRead (fsWrite fs p c) q = fsRead fs q := by
  simp [fsWrite, fsRead, h]

/-- A transcript path never coincides with a summary path. -/
theorem tpath_ne_spath (r1 r2 a b : String) :
    ¬ (ArtPath.transcript r1 a = ArtPath.summary r2 b) := by
  intro hcon
  exact ArtPath.noConfusion hcon

/-- A summary path never coincides with a transcript path. -/
theorem spath_ne_tpath (r1 r2 a b : String) :
    ¬ (ArtPath.summary r1 a = ArtPath.transcript r2 b) := by
  intro hcon
  exact ArtPath.noConfusion hcon

/-- C3: when a prior run root holds a transcript for the video (reported by
find_existing_transcript together with an optional prior summary), Phase 1
copies the transcript into this run's path without invoking the extractor
and marks the video processed; the prior summary is carried forward exactly
when --include-previous is set and the prior summary exists; and whenever
it is not carried forward, Phase 2 still attempts a fresh summarization for
this id. -/
theorem c3_cross_run_reuse (cfg : RunConfig) (st : RunState) (v : Video)
    (tp : ArtPath) (sOpt : Option ArtPath)
    (h : find_existing_transcript st.fs cfg.listing v.id cfg.runRoot = (some tp, sOpt))
    (h0 : st.skippedIds.contains v.id = false)
    (hs : fsExists st.fs (ArtPath.summary cfg.runRoot v.id) = false) :
    extractCallCount (phase1Step cfg st v).events v.id = extractCallCount st.events v.id
    ∧ (phase1Step cfg st v).processedIds = st.processedIds ++ [v.id]
    ∧ fsExists (phase1Step cfg st v).fs (ArtPath.transcript cfg.runRoot v.id) = true
    ∧ fsExists (phase1Step cfg st v).fs (ArtPath.summary cfg.runRoot v.id)
        = (cfg.includePrevious && sOpt.isSome)
    ∧ ((cfg.includePrevious && sOpt.isSome) = false →
        summarizeCallCount (phase2Step cfg (phase1Step cfg st v) v).events v.id
          = summarizeCallCount (phase1Step cfg st v).events v.id + 1) := by
  have hts : ¬ (ArtPath.transcript cfg.runRoot v.id = ArtPath.summary cfg.runRoot v.id) :=
    tpath_ne_spath cfg.runRoot cfg.runRoot v.id v.id
  have hst2 : ∀ st2 : RunState,
      st2.skippedIds.contains v.id = false →
      fsExists st2.fs (ArtPath.summary cfg.runRoot v.id) = false →
      fsExists st2.fs (ArtPath.transcript cfg.runRoot v.id) = true →
      summarizeCallCount (phase2Step cfg st2 v).events v.id
        = summarizeCallCount st2.events v.id + 1 := by
    intro st2 k0 ks kt
    cases hok : ((!(cfg.summarize ((fsRead st2.fs (ArtPath.transcript cfg.runRoot v.id)).getD ("")) == ("")))
        && (!(startsWithStr (cfg.summarize ((fsRead st2.fs (ArtPath.transcript cfg.runRoot v.id)).getD (""))) ("Error:")))
        && (!(startsWithStr (cfg.summarize ((fsRead st2.fs (ArtPath.transcript cfg.runRoot v.id)).getD (""))) ("An error occurred")))) with
    | true =>
      rw [phase2Step_success cfg st2 v k0 ks kt hok]
      simp [summarizeCallCount, List.filter_append, List.filter]
    | false =>
      rw [phase2Step_failure cfg st2 v k0 ks kt hok]
      simp [summarizeCallCount, List.filter_append, List.filter]
  cases hip : cfg.includePrevious with
  | false =>
    rw [phase1Step_found_noinc cfg st v tp sOpt h hip]
    refine ⟨?_, rfl, ?_, ?_, ?_⟩
    · simp [extractCallCount, List.filter_append, List.filter]
    · simp [fsExists, fsRead_write_self]
    · rw [Bool.false_and]
      show fsExists (fsWrite st.fs (ArtPath.transcript cfg.runRoot v.id)
        ((fsRead st.fs tp).getD (""))) (ArtPath.summary cfg.runRoot v.id) = false
      unfold fsExists
      rw [fsRead_write_ne st.fs _ _ _ hts]
      exact hs
    · intro _
      apply hst2
      · exact h0
      · show fsExists (fsWrite st.fs (ArtPath.transcript cfg.runRoot v.id)
          ((fsRead st.fs tp).getD (""))) (ArtPath.summary cfg.runRoot v.id) = false
        unfold fsExists
        rw [fsRead_write_ne st.fs _ _ _ hts]
        exact hs
      · simp [fsExists, fsRead_write_self]
  | true =>
    cases sOpt with
    | none =>
      rw [phase1Step_found_nosum cfg st v tp h]
      refine ⟨?_, rfl, ?_, ?_, ?_⟩
      · simp [extractCallCount, List.filter_append, List.filter]
      · simp [fsExists, fsRead_write_self]
      · rw [Option.isSome_none, Bool.and_false]
        show fsExists (fsWrite st.fs (ArtPath.transcript cfg.runRoot v.id)
          ((fsRead st.fs tp).getD (""))) (ArtPath.summary cfg.runRoot v.id) = false
        unfold fsExists
        rw [fsRead_write_ne st.fs _ _ _ hts]
        exact hs
      · intro _
        apply hst2
        · exact h0
        · show fsExists (fsWrite st.fs (ArtPath.transcript cfg.runRoot v.id)
            ((fsRead st.fs tp).getD (""))) (ArtPath.summary cfg.runRoot v.id) = false
          unfold fsExists
          rw [fsRead_write_ne st.fs _ _ _ hts]
          exact hs
        · simp [fsExists, fsRead_write_self]
    | some sp =>
      rw [phase1Step_found_inc cfg st v tp sp h hip]
      refine ⟨?_, rfl, ?_, ?_, ?_⟩
      · simp [extractCallCount, List.filter_append, List.filter]
      · show fsExists (fsWrite _ (ArtPath.summary cfg.runRoot v.id) _)
          (ArtPath.transcript cfg.runRoot v.id) = true
        unfold fsExists
        rw [fsRead_write_ne _ _ _ _ (spath_ne_tpath cfg.runRoot cfg.runRoot v.id v.id)]
        simp [fsRead_write_self]
      · simp [fsExists, fsRead_write_self]
      · intro hcon
        simp at hcon

/-- Witness for C3: a fresh run over a prior run holding a transcript for
V123 and no summary copies the transcript without extraction and still
attempts a fresh summarization. -/
theorem c3_cross_run_reuse_witness :
    extractCallCount (phase1Step cfgPrior (initState fsPrior) vidV123).events vidV123.id
      = extractCallCount (initState fsPrior).events vidV123.id
    ∧ fsExists (phase1Step cfgPrior (initState fsPrior) vidV123).fs
        (ArtPath.transcript cfgPrior.runRoot vidV123.id) = true
    ∧ summarizeCallCount
        (phase2Step cfgPrior (phase1Step cfgPrior (initState fsPrior) vidV123) vidV123).events
        vidV123.id
      = summarizeCallCount (phase1Step cfgPrior (initState fsPrior) vidV123).events vidV123.id + 1 := by
  have h := c3_cross_run_reuse cfgPrior (initState fsPrior) vidV123 tpPrior none
    (by decide) (by decide) (by decide)
  exact ⟨h.1, h.2.2.1, h.2.2.2.2 (by decide)⟩

/-! ## Live-content exclusion lemmas -/

/-- Members of the per-page non-live selection are non-live. -/
theorem mem_nonLiveVideosOf (isLive : String → Bool) (cid : String)
    (batch : List PlaylistItem) (v : Video)
    (h : v ∈ nonLiveVideosOf isLive cid batch) :
    v.isLiveContent = false ∧ isLive v.id = false := by
  simp only [nonLiveVideosOf, List.mem_map, List.mem_filter] at h
  obtain ⟨it, ⟨_, hlive⟩, hv⟩ := h
  rw [← hv]
  refine ⟨rfl, ?_⟩
  simpa using hlive

/-- Every video returned by get_channel_videos is non-live according to the
detail oracle (and carries isLiveContent = false). -/
theorem get_channel_videos_not_live (isLive : String → Bool) (cid : String)
    (cutoff : Int) (pages : List (List PlaylistItem)) :
    ∀ v ∈ (get_channel_videos isLive cid cutoff pages).1,
      v.isLiveContent = false ∧ isLive v.id = false := by
  induction pages with
  | nil => intro v hv; simp [get_channel_videos] at hv
  | cons page rest ih =>
    intro v hv
    simp only [get_channel_videos] at hv
    by_cases hb : (batchOfPage cutoff page).isEmpty
    · rw [if_pos hb] at hv
      exact mem_nonLiveVideosOf isLive cid _ v hv
    · rw [if_neg hb] at hv
      by_cases hr : rest.isEmpty
      · rw [if_pos hr] at hv
        exact mem_nonLiveVideosOf isLive cid _ v hv
      · rw [if_neg hr] at hv
        simp only [List.mem_append] at hv
        rcases hv with hv | hv
        · exact mem_nonLiveVideosOf isLive cid _ v hv
        · exact ih v hv

/-- A live-flagged id never reaches the channel-mode resolved list. -/
theorem get_channel_videos_excludes_live (isLive : String → Bool) (cid : String)
    (cutoff : Int) (pages : List (List PlaylistItem)) (liveId : String)
    (hl : isLive liveId = true) :
    liveId ∉ (get_channel_videos isLive cid cutoff pages).1.map (fun v => v.id) := by
  intro hmem
  simp only [List.mem_map] at hmem
  obtain ⟨v, hv, hid⟩ := hmem
  have := (get_channel_videos_not_live isLive cid cutoff pages v hv).2
  rw [hid] at this
  rw [hl] at this
  exact Bool.noConfusion this

/-- A live-flagged id never reaches the explicit-id resolved list. -/
theorem resolveVideoIds_excludes_live (oracle : String → Option YtVideoItem)
    (flag : Bool) (days cutoff : Int) (inputs : List String) (liveId : String)
    (hl : ∀ it, oracle liveId = some it → it.hasLiveStreamingDetails = true) :
    liveId ∉ (resolveVideoIds oracle flag days cutoff inputs).map (fun v => v.id) := by
  have aux : ∀ (l : List String) (acc : List Video),
      liveId ∉ acc.map (fun v => v.id) →
      liveId ∉ (List.foldl (fun acc vid =>
        match get_video_details oracle vid with
        | none => acc
        | some vd =>
          if vd.isLiveContent then acc
          else if (!flag) && (decide (0 < days)) && (decide (vd.publishedAt < cutoff)) then acc
          else acc ++ [vd]) acc l).map (fun v => v.id) := by
    intro l
    induction l with
    | nil => intro acc hacc; exact hacc
    | cons vid rest ih =>
      intro acc hacc
      rw [List.foldl_cons]
      apply ih
      cases hd : get_video_details oracle vid with
      | none => simpa [hd] using hacc
      | some vd =>
        by_cases hlv : vd.isLiveContent = true
        · simpa [hd, hlv] using hacc
        · have hlv2 : vd.isLiveContent = false := by
            cases hb : vd.isLiveContent with
            | false => rfl
            | true => exact absurd hb hlv
          by_cases hdate : ((!flag) && (decide (0 < days)) && (decide (vd.publishedAt < cutoff))) = true
          · simpa [hd, hlv2, hdate] using hacc
          · have hdate2 : ((!flag) && (decide (0 < days)) && (decide (vd.publishedAt < cutoff))) = false := by
              cases hb : ((!flag) && (decide (0 < days)) && (decide (vd.publishedAt < cutoff))) with
              | false => rfl
              | true => exact absurd hb hdate
            simp only [hd, hlv2, hdate2, Bool.false_eq_true, if_false, List.map_append,
              List.mem_append]
            intro hmem
            rcases hmem with hmem | hmem
            · exact hacc hmem
            · simp only [List.map_cons, List.map_nil, List.mem_singleton] at hmem
              unfold get_video_details at hd
              cases ho : oracle vid with
              | none =>
                rw [ho] at hd
                exact Option.noConfusion hd
              | some it =>
                rw [ho] at hd
                have hvd := Option.some.inj hd
                have hid : vd.id = vid := by rw [← hvd]
                have hlc : vd.isLiveContent = it.hasLiveStreamingDetails := by rw [← hvd]
                have hol : oracle liveId = some it := by rw [hmem, hid]; exact ho
                have hliveit := hl it hol
                rw [hlc, hliveit] at hlv2
                exact Bool.noConfusion hlv2
  exact aux inputs [] (by simp)

/-- noWritesFor distributes over trace concatenation. -/
theorem noWritesFor_append (vid : String) (a b : List RunEvent) :
    noWritesFor vid (a ++ b) = (noWritesFor vid a && noWritesFor vid b) := by
  simp [noWritesFor, List.all_append]

/-- A trace whose write targets are all keyed by another id writes nothing
for this id. -/
theorem noWritesFor_of_targets (vid other : String) (l : List RunEvent)
    (hne : ¬ other = vid)
    (ht : ∀ e ∈ l, ∀ q ∈ writeTargets e, pathVideoId q = other) :
    noWritesFor vid l = true := by
  simp only [noWritesFor, List.all_eq_true]
  intro e he q hq
  have := ht e he q hq
  simp [this, hne]

/-- Phase 1 writes only artifacts keyed by ids of the processed list. -/
theorem phase1_noWritesFor (cfg : RunConfig) (videos : List Video) (vid : String)
    (hvid : ∀ v ∈ videos, ¬ v.id = vid) :
    ∀ st : RunState, noWritesFor vid st.events = true →
      noWritesFor vid (phase1 cfg videos st).events = true := by
  induction videos with
  | nil => intro st h; exact h
  | cons v rest ih =>
    intro st h
    have hstep : phase1 cfg (v :: rest) st = phase1 cfg rest (phase1Step cfg st v) := rfl
    rw [hstep]
    apply ih (fun w hw => hvid w (List.mem_cons_of_mem v hw))
    obtain ⟨l, hl, _, htgt⟩ := phase1Step_events cfg st v
    rw [hl, noWritesFor_append, h,
      noWritesFor_of_targets vid v.id l (hvid v (List.mem_cons_self v rest)) htgt]
    rfl

/-- Phase 2 writes only artifacts keyed by ids of the processed list. -/
theorem phase2_noWritesFor (cfg : RunConfig) (videos : List Video) (vid : String)
    (hvid : ∀ v ∈ videos, ¬ v.id = vid) :
    ∀ st : RunState, noWritesFor vid st.events = true →
      noWritesFor vid (phase2 cfg videos st).events = true := by
  induction videos with
  | nil => intro st h; exact h
  | cons v rest ih =>
    intro st h
    have hstep : phase2 cfg (v :: rest) st = phase2 cfg rest (phase2Step cfg st v) := rfl
    rw [hstep]
    apply ih (fun w hw => hvid w (List.mem_cons_of_mem v hw))
    obtain ⟨l, hl, _, htgt⟩ := phase2Step_events cfg st v
    rw [hl, noWritesFor_append, h,
      noWritesFor_of_targets vid v.id l (hvid v (List.mem_cons_self v rest)) htgt]
    rfl

/-- C5: a live-flagged video is excluded in both modes — its id never
appears in the channel-mode resolved list (when the live-detail oracle
flags it) nor in the explicit-id resolved list (when its detail fetch
carries live-streaming detail) — and the pipeline writes artifacts only for
resolved ids, so no transcript or summary artifact is ever produced for an
id outside the resolved list. -/
theorem c5_live_content_excluded :
    (∀ (isLive : String → Bool) (cid : String) (cutoff : Int)
        (pages : List (List PlaylistItem)) (liveId : String),
        isLive liveId = true →
        liveId ∉ (get_channel_videos isLive cid cutoff pages).1.map (fun v => v.id))
    ∧ (∀ (oracle : String → Option YtVideoItem) (flag : Bool) (days cutoff : Int)
        (inputs : List String) (liveId : String),
        (∀ it, oracle liveId = some it → it.hasLiveStreamingDetails = true) →
        liveId ∉ (resolveVideoIds oracle flag days cutoff inputs).map (fun v => v.id))
    ∧ (∀ (cfg : RunConfig) (videos : List Video) (fs0 : FileStore) (vid : String),
        vid ∉ videos.map (fun v => v.id) →
        noWritesFor vid (runPipeline cfg videos fs0).events = true) := by
  refine ⟨get_channel_videos_excludes_live, resolveVideoIds_excludes_live, ?_⟩
  intro cfg videos fs0 vid hvid
  have hv : ∀ v ∈ videos, ¬ v.id = vid := by
    intro v hv hid
    exact hvid (by simp only [List.mem_map]; exact ⟨v, hv, hid⟩)
  unfold runPipeline
  apply phase2_noWritesFor cfg videos vid hv
  apply phase1_noWritesFor cfg videos vid hv
  rfl

/-- Witness for C5: the live id L1 stays out of a concrete channel
resolution, the live id L2 stays out of a concrete explicit-id resolution,
and a concrete run writes nothing for an unresolved id L9. -/
theorem c5_live_content_excluded_witness :
    ((("L1") ∉ (get_channel_videos (fun s => s == ("L1")) ("UC1") 0
        [[{ videoId := ("L1"), title := ("t"), publishedAt := (5 : Int) }]]).1.map
          (fun v => v.id))
    ∧ (("L2") ∉ (resolveVideoIds oracleExp true 1 100 [("V1"), ("L2")]).map
          (fun v => v.id))
    ∧ noWritesFor ("L9") (runPipeline cfgFresh [vidV1] []).events = true) := by
  refine ⟨c5_live_content_excluded.1 (fun s => s == ("L1")) ("UC1") 0 _ ("L1") (by decide),
    c5_live_content_excluded.2.1 oracleExp true 1 100 [("V1"), ("L2")] ("L2") ?_,
    c5_live_content_excluded.2.2 cfgFresh [vidV1] [] ("L9") (by decide)⟩
  intro it hit
  have he : some ({ title := ("t2"), publishedAt := (500 : Int),
                    hasLiveStreamingDetails := true,
                    channelId := ("UC1") } : YtVideoItem) = some it := hit
  have := Option.some.inj he
  rw [← this]

/-- Supporting fact for the cutoff claim: no item older than the cutoff
ever reaches the returned video list of get_channel_videos. -/
theorem get_channel_videos_cutoff_pure (isLive : String → Bool) (cid : String)
    (cutoff : Int) (pages : List (List PlaylistItem)) :
    ∀ v ∈ (get_channel_videos isLive cid cutoff pages).1, cutoff ≤ v.publishedAt := by
  have hbatch : ∀ (page : List PlaylistItem) (v : Video),
      v ∈ nonLiveVideosOf isLive cid (batchOfPage cutoff page) →
      cutoff ≤ v.publishedAt := by
    intro page v hv
    simp only [nonLiveVideosOf, List.mem_map, List.mem_filter] at hv
    obtain ⟨it, ⟨hmem, _⟩, hveq⟩ := hv
    have := List.mem_takeWhile_imp hmem
    rw [← hveq]
    simpa using this
  induction pages with
  | nil => intro v hv; simp [get_channel_videos] at hv
  | cons page rest ih =>
    intro v hv
    simp only [get_channel_videos] at hv
    by_cases hb : (batchOfPage cutoff page).isEmpty
    · rw [if_pos hb] at hv
      exact hbatch page v hv
    · rw [if_neg hb] at hv
      by_cases hr : rest.isEmpty
      · rw [if_pos hr] at hv
        exact hbatch page v hv
      · rw [if_neg hr] at hv
        simp only [List.mem_append] at hv
        rcases hv with hv | hv
        · exact hbatch page v hv
        · exact ih v hv

/-- C6: whenever the summarization call returns an error-shaped result
(either error prefix), the orchestrator writes no summary file for that
video, records the failure diagnostic, and continues Phase 2 over the
remaining videos from an otherwise unchanged state. -/
theorem c6_error_summary_not_persisted (cfg : RunConfig) (st : RunState) (v : Video)
    (rest : List Video)
    (h0 : st.skippedIds.contains v.id = false)
    (hs : fsExists st.fs (ArtPath.summary cfg.runRoot v.id) = false)
    (htr : fsExists st.fs (ArtPath.transcript cfg.runRoot v.id) = true)
    (herr : errShaped (cfg.summarize
      ((fsRead st.fs (ArtPath.transcript cfg.runRoot v.id)).getD (""))) = true) :
    phase2Step cfg st v
      = { st with events := st.events
            ++ [RunEvent.summarizeCall v.id, RunEvent.summaryFailed v.id] }
    ∧ phase2 cfg (v :: rest) st
      = phase2 cfg rest
          { st with events := st.events
              ++ [RunEvent.summarizeCall v.id, RunEvent.summaryFailed v.id] } := by
  have herr2 := herr
  unfold errShaped at herr2
  have hbad : ((!(cfg.summarize ((fsRead st.fs (ArtPath.transcript cfg.runRoot v.id)).getD ("")) == ("")))
      && (!(startsWithStr (cfg.summarize ((fsRead st.fs (ArtPath.transcript cfg.runRoot v.id)).getD (""))) ("Error:")))
      && (!(startsWithStr (cfg.summarize ((fsRead st.fs (ArtPath.transcript cfg.runRoot v.id)).getD (""))) ("An error occurred")))) = false := by
    cases ha : startsWithStr (cfg.summarize ((fsRead st.fs (ArtPath.transcript cfg.runRoot v.id)).getD (""))) ("Error:") with
    | true => simp [ha]
    | false =>
      cases hb : startsWithStr (cfg.summarize ((fsRead st.fs (ArtPath.transcript cfg.runRoot v.id)).getD (""))) ("An error occurred") with
      | true => simp [hb]
      | false =>
        rw [ha, hb] at herr2
        simp at herr2
  have hfail := phase2Step_failure cfg st v h0 hs htr hbad
  refine ⟨hfail, ?_⟩
  have hstep : phase2 cfg (v :: rest) st = phase2 cfg rest (phase2Step cfg st v) := rfl
  rw [hstep, hfail]

/-- Witness for C6: a summarizer that always returns the missing-prompt
error shape leaves the state unchanged apart from the diagnostic events,
and Phase 2 carries on with the rest of the batch. -/
theorem c6_error_summary_not_persisted_witness :
    phase2Step cfgErr stErr vidV1
      = { stErr with events := stErr.events
            ++ [RunEvent.summarizeCall vidV1.id, RunEvent.summaryFailed vidV1.id] }
    ∧ phase2 cfgErr [vidV1, vidV2] stErr
      = phase2 cfgErr [vidV2]
          { stErr with events := stErr.events
              ++ [RunEvent.summarizeCall vidV1.id, RunEvent.summaryFailed vidV1.id] } :=
  c6_error_summary_not_persisted cfgErr stErr vidV1 [vidV2]
    (by decide) (by decide) (by decide) (by decide)

/-- C10: a subtitle payload that parses to the empty string is treated
exactly like an absent transcript: Phase 1 records only the extractor call
and writes nothing, and, the transcript being absent from this run's path,
Phase 2 produces no summary for the video. -/
theorem c10_empty_parse_treated_as_absent (sub : String → Option String)
    (payload : String) (cfg : RunConfig) (st : RunState) (v : Video)
    (hsub : sub v.id = some payload)
    (hparse : parseVtt payload = (""))
    (hfind : find_existing_transcript st.fs cfg.listing v.id cfg.runRoot = (none, none))
    (hex : cfg.extract = get_transcript sub) :
    phase1Step cfg st v = { st with events := st.events ++ [RunEvent.extractCall v.id] }
    ∧ (st.skippedIds.contains v.id = false →
       fsExists st.fs (ArtPath.summary cfg.runRoot v.id) = false →
       fsExists st.fs (ArtPath.transcript cfg.runRoot v.id) = false →
       phase2Step cfg { st with events := st.events ++ [RunEvent.extractCall v.id] } v
         = { st with events := st.events ++ [RunEvent.extractCall v.id] }) := by
  have hx : cfg.extract v.id = some ("") := by
    rw [hex]
    unfold get_transcript
    rw [hsub]
    simp [hparse]
  refine ⟨phase1Step_extract_empty cfg st v none ("") hfind hx (by decide), ?_⟩
  intro k0 ks kt
  exact phase2Step_no_transcript cfg _ v k0 ks kt

/-- Witness for C10 over a concrete payload whose every line is discarded. -/
theorem c10_empty_parse_treated_as_absent_witness :
    parseVtt ("WEBVTT\n\n2\n00:00 --> 00:01\n<c></c>") = ("")
    ∧ phase1Step cfgEmptyParse (initState []) vidV1
        = { (initState []) with
            events := (initState []).events ++ [RunEvent.extractCall vidV1.id] }
    ∧ phase2Step cfgEmptyParse
        { (initState []) with
          events := (initState []).events ++ [RunEvent.extractCall vidV1.id] } vidV1
        = { (initState []) with
            events := (initState []).events ++ [RunEvent.extractCall vidV1.id] } := by
  have h := c10_empty_parse_treated_as_absent subEmpty
    ("WEBVTT\n\n2\n00:00 --> 00:01\n<c></c>") cfgEmptyParse (initState []) vidV1
    rfl (by decide) (by decide) rfl
  exact ⟨by decide, h.1, h.2 (by decide) (by decide) (by decide)⟩
